import Mathlib

/-!
Shallow embedding of the multi-account token store of `notion-cli`
(`internal/mcp/token_store.go`), together with proofs of the claims
about it.

Modelling conventions:

* The filesystem is restricted to the files the store touches under the
  user's home directory: the CLI config file (`config.json`), the legacy
  single-account token file (`token.json`), and the per-account directory
  (`accounts/`, holding files and possibly subdirectories).  `FS` holds
  each as its (optional) content.
* File contents are modelled semantically: either a parsed JSON value,
  an empty byte sequence, or unparseable bytes (`malformed`, tagged with
  a `Nat` so distinct garbage files stay distinguishable).  Migration
  copies contents verbatim, so garbage round-trips faithfully.
* `time.Time` values are modelled by their RFC3339 rendering as a
  `String`; the zero time is rendered `""`.  `time.Now()` becomes an
  explicit `now` parameter.  (Go emits `expires_at`/`saved_at`
  unconditionally because `omitempty` ignores struct values; parsing
  validity of timestamp strings is not modelled — no claim depends on
  it.)
* `context.Context` cancellation, the in-process `sync.RWMutex`, and
  I/O failures other than file-absence and JSON-decode failure are not
  modelled: execution is sequential and the only error sources are the
  ones the claims distinguish (`ErrNoToken`, `ErrInvalidAccount`,
  JSON decode errors).
* `os.MkdirAll` is a no-op in the model; `os.Remove` on an absent file
  yields only a not-exist error, which the source always swallows.
* Go marshals maps with sorted keys; key order inside an emitted JSON
  object is not modelled (lookups are order-insensitive over the last
  occurrence of a key, matching `encoding/json` duplicate handling).
-/

namespace NotionCLI

/-! ## JSON values -/

/-- A JSON value, as produced by `encoding/json`. Numbers are kept
abstract as integers (no claim inspects numeric values). -/
inductive JVal where
  | jnull
  | jbool (b : Bool)
  | jnum (n : Int)
  | jstr (s : String)
  | jarr (elems : List JVal)
  | jobj (kvs : List (String × JVal))

/-- Lookup of a key in a JSON object; the *last* occurrence wins, as in
`encoding/json` (later duplicate keys overwrite earlier ones). -/
def objLookup : List (String × JVal) → String → Option JVal
  | [], _ => none
  | (k', v) :: rest, k =>
    match objLookup rest k with
    | some v' => some v'
    | none => if k' = k then some v else none

/-- Set a key in a JSON object viewed as a map (Go unmarshals into
`map[string]any`, so duplicates collapse; we keep one binding). -/
def objSet (kvs : List (String × JVal)) (k : String) (v : JVal) :
    List (String × JVal) :=
  kvs.filter (fun e => !(e.1 == k)) ++ [(k, v)]

/-- Content of a file on disk. -/
inductive FileContent where
  | json (v : JVal)
  | empty
  | malformed (id : Nat)

/-! ## Strings: Go helpers used by the source -/

/-- `unicode.IsSpace`: the Unicode white-space code points. -/
def goIsSpace (c : Char) : Bool :=
  c.toNat == 0x20 || (0x9 ≤ c.toNat && c.toNat ≤ 0xD) || c.toNat == 0x85 ||
  c.toNat == 0xA0 || c.toNat == 0x1680 ||
  (0x2000 ≤ c.toNat && c.toNat ≤ 0x200A) || c.toNat == 0x2028 ||
  c.toNat == 0x2029 || c.toNat == 0x202F || c.toNat == 0x205F ||
  c.toNat == 0x3000

/-- `strings.TrimSpace`. -/
def goTrimSpace (s : String) : String :=
  ⟨((s.data.dropWhile goIsSpace).reverse.dropWhile goIsSpace).reverse⟩

/-- `strings.HasSuffix`. -/
def goHasSuffix (s suf : String) : Bool :=
  suf.data.isSuffixOf s.data

/-- `strings.TrimSuffix`. -/
def goTrimSuffix (s suf : String) : String :=
  if goHasSuffix s suf then ⟨s.data.take (s.data.length - suf.data.length)⟩
  else s

/-! ## Account names -/

/-- A character matched by `[A-Za-z0-9]`. -/
def isAlnumGo (c : Char) : Bool :=
  (0x41 ≤ c.toNat && c.toNat ≤ 0x5A) || (0x61 ≤ c.toNat && c.toNat ≤ 0x7A) ||
  (0x30 ≤ c.toNat && c.toNat ≤ 0x39)

/-- A character matched by `[A-Za-z0-9._@+-]`; the extra code points are
`.` (0x2E), `_` (0x5F), `@` (0x40), `+` (0x2B), `-` (0x2D). -/
def isAccountChar (c : Char) : Bool :=
  isAlnumGo c || c.toNat == 0x2E || c.toNat == 0x5F || c.toNat == 0x40 ||
  c.toNat == 0x2B || c.toNat == 0x2D

/-- `accountNameRe.MatchString`: full match of
`^[A-Za-z0-9][A-Za-z0-9._@+-]*$`. -/
def accountNameMatches (s : String) : Bool :=
  match s.data with
  | [] => false
  | c :: rest => isAlnumGo c && rest.all isAccountChar

/-- The errors the store distinguishes: `ErrInvalidAccount` (carrying the
offending name), `ErrNoToken`, and JSON decode failure. -/
inductive StoreError where
  | invalidAccount (account : String)
  | noToken
  | decodeError
deriving DecidableEq, Repr

/-- `ValidateAccountName`. -/
def ValidateAccountName (account : String) : Except StoreError Unit :=
  if account = "" then .error (.invalidAccount account)
  else if accountNameMatches account then .ok ()
  else .error (.invalidAccount account)

/-- The well-known account `"default"`. -/
def defaultAccount : String := "default"

/-! ## Stored records -/

/-- `storedToken`: the persisted per-account JSON record. Timestamps are
modelled by their RFC3339 rendering (zero time rendered `""`). -/
structure StoredToken where
  accessToken : String
  tokenType : String
  refreshToken : String
  expiresAt : String
  savedAt : String
  clientID : String
deriving DecidableEq, Repr

/-- The zero value of `storedToken`. -/
def emptyStoredToken : StoredToken :=
  ⟨"", "", "", "", "", ""⟩

/-- `transport.Token` (the fields the store reads and writes). -/
structure Token where
  accessToken : String
  tokenType : String
  refreshToken : String
  expiresAt : String
deriving DecidableEq, Repr

/-- `cliConfig`: the typed view of the config document. -/
structure CLIConfig where
  activeAccount : String
deriving DecidableEq, Repr

/-- Decode one string-typed JSON field, as `encoding/json` does for a
`string` (or rendered `time.Time`) struct field: absent or `null` leaves
the zero value, a string is taken verbatim, any other type is an error. -/
def fieldStr (kvs : List (String × JVal)) (k : String) : Option String :=
  match objLookup kvs k with
  | none => some ""
  | some .jnull => some ""
  | some (.jstr s) => some s
  | some _ => none

/-- `json.Unmarshal` of a JSON value into `storedToken`: `null` is a
no-op (zero record), an object decodes field-wise, anything else fails. -/
def decodeStoredToken : JVal → Option StoredToken
  | .jnull => some emptyStoredToken
  | .jobj kvs => do
    let accessToken ← fieldStr kvs "access_token"
    let tokenType ← fieldStr kvs "token_type"
    let refreshToken ← fieldStr kvs "refresh_token"
    let expiresAt ← fieldStr kvs "expires_at"
    let savedAt ← fieldStr kvs "saved_at"
    let clientID ← fieldStr kvs "client_id"
    some ⟨accessToken, tokenType, refreshToken, expiresAt, savedAt, clientID⟩
  | _ => none

/-- `json.Unmarshal` of raw file bytes into `storedToken` (empty or
unparseable bytes fail). -/
def unmarshalStoredToken : FileContent → Option StoredToken
  | .json v => decodeStoredToken v
  | _ => none

/-- `json.MarshalIndent` of a `storedToken`: fields in declaration
order; `refresh_token` and `client_id` carry `omitempty`; the timestamp
fields are emitted unconditionally (`omitempty` ignores struct values). -/
def marshalStoredToken (t : StoredToken) : FileContent :=
  .json (.jobj (
    [("access_token", .jstr t.accessToken), ("token_type", .jstr t.tokenType)]
    ++ (if t.refreshToken = "" then []
        else [("refresh_token", .jstr t.refreshToken)])
    ++ [("expires_at", .jstr t.expiresAt), ("saved_at", .jstr t.savedAt)]
    ++ (if t.clientID = "" then [] else [("client_id", .jstr t.clientID)])))

/-- `json.Unmarshal` of a JSON value into `cliConfig`. -/
def decodeCLIConfig : JVal → Option CLIConfig
  | .jnull => some ⟨""⟩
  | .jobj kvs => (fieldStr kvs "active_account").map (⟨·⟩)
  | _ => none

/-! ## The filesystem model -/

/-- The files the token store touches under the home directory. -/
structure FS where
  /-- `~/.config/notion-cli/config.json` (absent when `none`). -/
  config : Option FileContent
  /-- `~/.config/notion-cli/token.json`, the legacy token file. -/
  legacy : Option FileContent
  /-- Files inside `~/.config/notion-cli/accounts/`: filename → content. -/
  accountFiles : List (String × FileContent)
  /-- Subdirectory names inside the accounts directory. -/
  accountDirs : List String

/-- The empty home directory. -/
def fsEmpty : FS := ⟨none, none, [], []⟩

/-- Read a file from a directory listing (filenames are unique in a
real directory, so first match is the file). -/
def lookupFile : List (String × FileContent) → String → Option FileContent
  | [], _ => none
  | e :: rest, name => if e.1 = name then some e.2 else lookupFile rest name

/-- Write (create or replace) a file in a directory listing. -/
def setFile (files : List (String × FileContent)) (name : String)
    (content : FileContent) : List (String × FileContent) :=
  files.filter (fun e => !(e.1 == name)) ++ [(name, content)]

/-- Remove a file from a directory listing. -/
def removeFile (files : List (String × FileContent)) (name : String) :
    List (String × FileContent) :=
  files.filter (fun e => !(e.1 == name))

/-- The filename of an account's token file inside `accounts/`. -/
def accountFileName (account : String) : String :=
  account ++ ".json"

/-- Write the per-account token file of `account`. -/
def setAccountFile (fs : FS) (account : String) (content : FileContent) :
    FS :=
  { fs with accountFiles := setFile fs.accountFiles (accountFileName account) content }

/-! ## Config document operations -/

/-- `readCLIConfig`: a missing file is an empty document; otherwise the
bytes must unmarshal into `cliConfig`. -/
def readCLIConfig (fs : FS) : Except StoreError CLIConfig :=
  match fs.config with
  | none => .ok ⟨""⟩
  | some (.json v) =>
    match decodeCLIConfig v with
    | some cfg => .ok cfg
    | none => .error .decodeError
  | some _ => .error .decodeError

/-- `writeCLIConfig`: read-merge-write of the on-disk JSON object.  A
missing or zero-length file starts from the empty map; `null` bytes
unmarshal into a map as a no-op; a non-object JSON document is a decode
error; then only `active_account` is set and the object written back. -/
def writeCLIConfig (fs : FS) (cfg : CLIConfig) : Except StoreError FS :=
  match
    (match fs.config with
     | none => Except.ok []
     | some .empty => Except.ok []
     | some (.json .jnull) => Except.ok []
     | some (.json (.jobj kvs)) => Except.ok kvs
     | some (.json _) => Except.error StoreError.decodeError
     | some (.malformed _) => Except.error StoreError.decodeError) with
  | .error e => .error e
  | .ok merged =>
    .ok { fs with
          config := some (.json (.jobj
            (objSet merged "active_account" (.jstr cfg.activeAccount)))) }

/-- `SetActiveAccount` (the source's `normalized` is the trimmed input,
inlined here). -/
def SetActiveAccount (account : String) (fs : FS) : Except StoreError FS :=
  match ValidateAccountName (goTrimSpace account) with
  | .error e => .error e
  | .ok () =>
    match readCLIConfig fs with
    | .error e => .error e
    | .ok _ => writeCLIConfig fs ⟨goTrimSpace account⟩

/-- `resolveAccountNameForHome` (the source's `normalized` is the
trimmed input, inlined here). -/
def resolveAccountNameForHome (account : String) (fs : FS) :
    Except StoreError String :=
  if goTrimSpace account ≠ "" then
    match ValidateAccountName (goTrimSpace account) with
    | .error e => .error e
    | .ok () => .ok (goTrimSpace account)
  else
    match readCLIConfig fs with
    | .error e => .error e
    | .ok cfg =>
      if cfg.activeAccount ≠ "" then
        match ValidateAccountName cfg.activeAccount with
        | .error e => .error e
        | .ok () => .ok cfg.activeAccount
      else .ok defaultAccount

/-! ## Token file reads and writes -/

/-- Decode the bytes of one candidate token file. -/
def decodeContent (c : FileContent) : Except StoreError StoredToken :=
  match unmarshalStoredToken c with
  | some t => .ok t
  | none => .error .decodeError

/-- `readStoredTokenUnlocked`: candidate paths in fixed order — the
account file first, then (for the `default` account only) the legacy
file; absence of every candidate is `ErrNoToken`. -/
def readStoredTokenUnlocked (account : String) (fs : FS) :
    Except StoreError StoredToken :=
  match lookupFile fs.accountFiles (accountFileName account) with
  | some c => decodeContent c
  | none =>
    if account = defaultAccount then
      match fs.legacy with
      | some c => decodeContent c
      | none => .error .noToken
    else .error .noToken

/-- `GetToken`. -/
def GetToken (account : String) (fs : FS) : Except StoreError Token :=
  match readStoredTokenUnlocked account fs with
  | .error e => .error e
  | .ok st => .ok ⟨st.accessToken, st.tokenType, st.refreshToken, st.expiresAt⟩

/-- The record `SaveToken` persists: every field from the incoming
token, a fresh `saved_at` stamp, and the previously stored `client_id`. -/
def saveTokenWrite (account : String) (token : Token) (now : String)
    (existing : StoredToken) (fs : FS) : FS :=
  setAccountFile fs account (marshalStoredToken
    { accessToken := token.accessToken
      tokenType := token.tokenType
      refreshToken := token.refreshToken
      expiresAt := token.expiresAt
      savedAt := now
      clientID := existing.clientID })

/-- `SaveToken`: read-before-write; a `no token` condition on the read
falls back to the zero record, any other read error aborts. -/
def SaveToken (account : String) (token : Token) (now : String) (fs : FS) :
    Except StoreError FS :=
  match readStoredTokenUnlocked account fs with
  | .error e =>
    if e = .noToken then .ok (saveTokenWrite account token now emptyStoredToken fs)
    else .error e
  | .ok existing => .ok (saveTokenWrite account token now existing fs)

/-- `SaveClientID`: read-before-write; only `client_id` changes. -/
def SaveClientID (account : String) (clientID : String) (fs : FS) :
    Except StoreError FS :=
  match readStoredTokenUnlocked account fs with
  | .error e =>
    if e = .noToken then
      .ok (setAccountFile fs account
        (marshalStoredToken { emptyStoredToken with clientID := clientID }))
    else .error e
  | .ok stored =>
    .ok (setAccountFile fs account
      (marshalStoredToken { stored with clientID := clientID }))

/-- `GetClientID`: a `no token` condition degrades to the empty string. -/
def GetClientID (account : String) (fs : FS) : Except StoreError String :=
  match readStoredTokenUnlocked account fs with
  | .error e => if e = .noToken then .ok "" else .error e
  | .ok stored => .ok stored.clientID

/-- `Clear`: remove the account file; for the `default` account also the
legacy file.  `os.Remove`'s not-exist error is swallowed, so absence is
not an error. -/
def Clear (account : String) (fs : FS) : Except StoreError FS :=
  let fs1 := { fs with accountFiles := removeFile fs.accountFiles (accountFileName account) }
  if account = defaultAccount then .ok { fs1 with legacy := none }
  else .ok fs1

/-- `migrateLegacyDefaultIfNeeded`: only for the `default` account, only
when the per-account file does not exist, copy the legacy file's bytes
verbatim into the per-account location (legacy file left in place). -/
def migrateLegacyDefaultIfNeeded (account : String) (fs : FS) : FS :=
  if account ≠ defaultAccount then fs
  else
    match lookupFile fs.accountFiles (accountFileName account) with
    | some _ => fs
    | none =>
      match fs.legacy with
      | none => fs
      | some legacyData => setAccountFile fs account legacyData

/-- `NewFileTokenStoreForAccount`: resolve the account, then run the
legacy migration; the store is bound to the resolved name. -/
def NewFileTokenStoreForAccount (account : String) (fs : FS) :
    Except StoreError (String × FS) :=
  match resolveAccountNameForHome account fs with
  | .error e => .error e
  | .ok resolved => .ok (resolved, migrateLegacyDefaultIfNeeded resolved fs)

/-! ## Listing accounts -/

/-- Go's `sort.Strings` orders byte-wise, which on UTF-8 agrees with the
lexicographic order on code points, i.e. on `String.data`. -/
def strle (a b : String) : Prop := a.data ≤ b.data

instance : DecidableRel strle := fun a b =>
  inferInstanceAs (Decidable (a.data ≤ b.data))

instance : IsTotal String strle := ⟨fun a b => le_total a.data b.data⟩

instance : IsTrans String strle := ⟨fun _ _ _ hab hbc => le_trans hab hbc⟩

/-- `sort.Strings` (any comparison sort agrees on duplicate-free input). -/
def sortStrings (l : List String) : List String :=
  List.insertionSort strle l

/-- Adding an account name to the accumulated set (`map[string]struct{}`
insertion, modelled on a duplicate-free list). -/
def insertAccount (acc : List String) (a : String) : List String :=
  if acc.contains a then acc else acc ++ [a]

/-- One directory entry of `accounts/`: `(name, isDir)`. -/
def accountsDirEntries (fs : FS) : List (String × Bool) :=
  fs.accountFiles.map (fun e => (e.1, false)) ++ fs.accountDirs.map (fun d => (d, true))

/-- The body of `ListAccounts`'s directory loop: skip directories, skip
names without the `.json` suffix, skip names whose stem fails account
validation, otherwise add the stem. -/
def listStep (acc : List String) (entry : String × Bool) : List String :=
  if entry.2 then acc
  else if goHasSuffix entry.1 ".json" then
    match ValidateAccountName (goTrimSuffix entry.1 ".json") with
    | .error _ => acc
    | .ok () => insertAccount acc (goTrimSuffix entry.1 ".json")
  else acc

/-- The start of `ListAccounts`'s account set: the configured active
account when one is set — an invalid persisted value is an error
(wrapped `configured active account: %w` in the source). -/
def activeAccountSeed (cfg : CLIConfig) : Except StoreError (List String) :=
  if cfg.activeAccount ≠ "" then
    match ValidateAccountName cfg.activeAccount with
    | .error e => .error e
    | .ok () => .ok (insertAccount [] cfg.activeAccount)
  else .ok []

/-- The account set before the final sort: the seed, the accounts
derived from the directory entries, and `default` when the legacy file
exists. -/
def accountsUnsorted (fs : FS) (seed : List String) : List String :=
  if fs.legacy.isSome then
    insertAccount ((accountsDirEntries fs).foldl listStep seed) defaultAccount
  else (accountsDirEntries fs).foldl listStep seed

/-- `ListAccounts`: the configured active account (validated), every
valid-named `.json` file in the accounts directory, and `default` when
the legacy file exists; sorted and de-duplicated. -/
def ListAccounts (fs : FS) : Except StoreError (List String) :=
  match readCLIConfig fs with
  | .error e => .error e
  | .ok cfg =>
    match activeAccountSeed cfg with
    | .error e => .error e
    | .ok acc0 => .ok (sortStrings (accountsUnsorted fs acc0))

/-! ## Example filesystem states used in concrete instances -/

/-- The spec's `listAccounts` example: files `work.json` and
`personal.json`, a legacy file, and active account `team`. -/
def fsListExample : FS :=
  { config := some (.json (.jobj [("active_account", .jstr "team")]))
    legacy := some (.json (.jobj [("access_token", .jstr "legacy")]))
    accountFiles := [("work.json", .json (.jobj [("access_token", .jstr "a")])),
                     ("personal.json", .json (.jobj [("access_token", .jstr "b")]))]
    accountDirs := [] }

/-- A stored record for account `work` holding a non-empty refresh token
and client id. -/
def stWithRefresh : StoredToken :=
  ⟨"a", "Bearer", "old-refresh", "", "", "cid"⟩

/-- A home directory whose `accounts/work.json` holds `stWithRefresh`. -/
def fsWithRefresh : FS :=
  { fsEmpty with accountFiles := [("work.json", marshalStoredToken stWithRefresh)] }

/-- A config document whose `active_account` field is a number: the
typed `cliConfig` decode rejects it. -/
def fsNumActive : FS :=
  { fsEmpty with config := some (.json (.jobj [("active_account", .jnum 5)])) }

/-- A config document whose persisted `active_account` is set but fails
account-name validation (leading space). -/
def fsBadActive : FS :=
  { fsEmpty with config := some (.json (.jobj [("active_account", .jstr " bad")])) }

/-- A home directory holding only a legacy token file whose bytes are
not valid JSON (migration copies bytes verbatim, parsed or not). -/
def fsLegacyOnly : FS :=
  { fsEmpty with legacy := some (.malformed 7) }

/-- The spec's config-merge example: `active_account` plus an unrelated
`api` section owned by another subsystem. -/
def fsMergeExample : FS :=
  { fsEmpty with config := some (.json (.jobj
      [("active_account", .jstr "default"),
       ("api", .jobj [("base_url", .jstr "u"), ("require_icon", .jbool true)])])) }

/-! ## Association-list lemmas -/

theorem lookupFile_append (l1 l2 : List (String × FileContent)) (n : String) :
    lookupFile (l1 ++ l2) n =
      (match lookupFile l1 n with
       | some c => some c
       | none => lookupFile l2 n) := by
  induction l1 with
  | nil => simp [lookupFile]
  | cons e rest ih =>
    by_cases h : e.1 = n <;> simp [lookupFile, h, ih]

theorem lookupFile_removeFile_self (l : List (String × FileContent))
    (n : String) : lookupFile (removeFile l n) n = none := by
  induction l with
  | nil => simp [lookupFile, removeFile]
  | cons e rest ih =>
    by_cases h : e.1 = n <;>
      simp_all [lookupFile, removeFile, List.filter_cons]

theorem lookupFile_removeFile_ne (l : List (String × FileContent))
    (n n' : String) (h : n' ≠ n) :
    lookupFile (removeFile l n) n' = lookupFile l n' := by
  induction l with
  | nil => simp [removeFile]
  | cons e rest ih =>
    by_cases he : e.1 = n
    · have hne : e.1 ≠ n' := by rw [he]; exact fun hx => h hx.symm
      simp_all [lookupFile, removeFile, List.filter_cons]
    · by_cases he2 : e.1 = n' <;>
        simp_all [lookupFile, removeFile, List.filter_cons]

theorem lookupFile_setFile_self (l : List (String × FileContent)) (n : String)
    (c : FileContent) : lookupFile (setFile l n c) n = some c := by
  rw [setFile, lookupFile_append]
  have : removeFile l n = l.filter (fun e => !(e.1 == n)) := rfl
  rw [← this, lookupFile_removeFile_self]
  simp [lookupFile]

theorem lookupFile_setFile_ne (l : List (String × FileContent)) (n n' : String)
    (c : FileContent) (h : n' ≠ n) :
    lookupFile (setFile l n c) n' = lookupFile l n' := by
  rw [setFile, lookupFile_append]
  have hrm : removeFile l n = l.filter (fun e => !(e.1 == n)) := rfl
  rw [← hrm, lookupFile_removeFile_ne l n n' h]
  cases hl : lookupFile l n' with
  | some c' => rfl
  | none =>
    simp only [lookupFile]
    rw [if_neg (fun hx : n = n' => h hx.symm)]

theorem objLookup_append (l1 l2 : List (String × JVal)) (k : String) :
    objLookup (l1 ++ l2) k =
      (match objLookup l2 k with
       | some v => some v
       | none => objLookup l1 k) := by
  induction l1 with
  | nil => cases h : objLookup l2 k <;> simp [objLookup, h]
  | cons e rest ih =>
    cases h : objLookup l2 k <;> cases h2 : objLookup rest k <;>
      simp_all [objLookup]

theorem objLookup_filterOut (l : List (String × JVal)) (k k' : String)
    (h : k' ≠ k) :
    objLookup (l.filter (fun e => !(e.1 == k))) k' = objLookup l k' := by
  induction l with
  | nil => simp
  | cons e rest ih =>
    by_cases he : e.1 == k
    · have he' : e.1 = k := by simpa using he
      have hne : ¬(e.1 = k') := by rw [he']; exact fun hx => h hx.symm
      simp_all [List.filter_cons, objLookup]
      cases objLookup rest k' <;> rfl
    · simp_all [List.filter_cons, objLookup]

theorem objLookup_objSet_self (l : List (String × JVal)) (k : String)
    (v : JVal) : objLookup (objSet l k v) k = some v := by
  rw [objSet, objLookup_append]
  simp [objLookup]

theorem objLookup_objSet_ne (l : List (String × JVal)) (k k' : String)
    (v : JVal) (h : k' ≠ k) :
    objLookup (objSet l k v) k' = objLookup l k' := by
  rw [objSet, objLookup_append]
  have hone : objLookup [(k, v)] k' = none := by
    simp only [objLookup]
    rw [if_neg (fun hx : k = k' => h hx.symm)]
  rw [hone, objLookup_filterOut l k k' h]

/-! ## Validation, trimming and suffix lemmas -/

theorem validateAccountName_eq (a : String) :
    ValidateAccountName a =
      (if accountNameMatches a then .ok () else .error (.invalidAccount a)) := by
  unfold ValidateAccountName
  by_cases h : a = ""
  · subst h
    have : accountNameMatches "" = false := by decide
    simp [this]
  · simp [h]

theorem accountChar_not_space (c : Char) (h : isAccountChar c = true) :
    goIsSpace c = false := by
  simp only [isAccountChar, isAlnumGo, Bool.or_eq_true, Bool.and_eq_true,
    decide_eq_true_eq, beq_iff_eq] at h
  simp only [goIsSpace, Bool.or_eq_false_iff, Bool.and_eq_false_iff,
    beq_eq_false_iff_ne, ne_eq, decide_eq_false_iff_not, not_le]
  omega

theorem dropWhile_eq_self_of_not (l : List Char)
    (h : ∀ x ∈ l, goIsSpace x = false) : l.dropWhile goIsSpace = l := by
  cases l with
  | nil => rfl
  | cons a rest =>
    rw [List.dropWhile_cons, h a (List.mem_cons_self a rest)]
    simp

theorem trimSpace_of_matches (s : String) (h : accountNameMatches s = true) :
    goTrimSpace s = s := by
  have hall : ∀ x ∈ s.data, goIsSpace x = false := by
    intro x hx
    cases hd : s.data with
    | nil => rw [hd] at hx; cases hx
    | cons c rest =>
      have h' : (match s.data with
        | [] => false
        | c :: rest => isAlnumGo c && rest.all isAccountChar) = true := h
      rw [hd] at h'
      simp only [Bool.and_eq_true, List.all_eq_true] at h'
      rw [hd] at hx
      rcases List.mem_cons.mp hx with rfl | hx'
      · exact accountChar_not_space x (by simp [isAccountChar, h'.1])
      · exact accountChar_not_space x (h'.2 x hx')
  unfold goTrimSpace
  rw [dropWhile_eq_self_of_not s.data hall,
    dropWhile_eq_self_of_not s.data.reverse
      (fun x hx => hall x (List.mem_reverse.mp hx)),
    List.reverse_reverse]

theorem hasSuffix_append (p : String) :
    goHasSuffix (p ++ ".json") ".json" = true := by
  rw [goHasSuffix]
  exact List.isSuffixOf_iff_suffix.mpr (List.suffix_append p.data ".json".data)

theorem trimSuffix_append (p : String) :
    goTrimSuffix (p ++ ".json") ".json" = p := by
  rw [goTrimSuffix, if_pos (hasSuffix_append p)]
  show String.mk ((p.data ++ ".json".data).take
    ((p.data ++ ".json".data).length - (".json".data).length)) = p
  rw [List.length_append, Nat.add_sub_cancel, List.take_left]

theorem exists_of_hasSuffix (n : String) (h : goHasSuffix n ".json" = true) :
    ∃ p, n = p ++ ".json" := by
  rw [goHasSuffix] at h
  obtain ⟨t, ht⟩ := List.isSuffixOf_iff_suffix.mp h
  refine ⟨⟨t⟩, ?_⟩
  cases n with
  | mk d =>
    show String.mk d = String.mk (t ++ ".json".data)
    rw [ht]

/-! ## Marshal/unmarshal round trip -/

theorem unmarshal_marshal (t : StoredToken) :
    unmarshalStoredToken (marshalStoredToken t) = some t := by
  obtain ⟨a, ty, r, e, sv, cid⟩ := t
  by_cases hr : r = "" <;> by_cases hc : cid = "" <;>
    simp [marshalStoredToken, unmarshalStoredToken, decodeStoredToken,
      objLookup, fieldStr, hr, hc]

theorem decodeContent_marshal (t : StoredToken) :
    decodeContent (marshalStoredToken t) = .ok t := by
  rw [decodeContent, unmarshal_marshal]

/-! ## Account-set accumulation lemmas -/

theorem mem_insertAccount (acc : List String) (a b : String) :
    b ∈ insertAccount acc a ↔ b ∈ acc ∨ b = a := by
  unfold insertAccount
  by_cases h : a ∈ acc
  · rw [if_pos (List.elem_iff.mpr h)]
    constructor
    · exact Or.inl
    · rintro (hb | rfl)
      · exact hb
      · exact h
  · rw [if_neg (fun hc => h (List.elem_iff.mp hc))]
    simp [List.mem_append]

theorem nodup_insertAccount (acc : List String) (a : String)
    (h : acc.Nodup) : (insertAccount acc a).Nodup := by
  unfold insertAccount
  by_cases hc : a ∈ acc
  · rw [if_pos (List.elem_iff.mpr hc)]
    exact h
  · rw [if_neg (fun hx => hc (List.elem_iff.mp hx))]
    simp [List.nodup_append, h, hc]

theorem listStep_eq (acc : List String) (e : String × Bool) :
    listStep acc e =
      (if e.2 then acc
       else if goHasSuffix e.1 ".json" &&
              accountNameMatches (goTrimSuffix e.1 ".json") then
         insertAccount acc (goTrimSuffix e.1 ".json")
       else acc) := by
  unfold listStep
  by_cases hd : e.2
  · simp [hd]
  · by_cases hs : goHasSuffix e.1 ".json"
    · rw [validateAccountName_eq]
      by_cases hm : accountNameMatches (goTrimSuffix e.1 ".json") <;>
        simp [hd, hs, hm]
    · simp [hd, hs]

theorem mem_foldl_listStep (entries : List (String × Bool))
    (acc : List String) (b : String) :
    b ∈ entries.foldl listStep acc ↔
      b ∈ acc ∨ ∃ e ∈ entries, e.2 = false ∧
        goHasSuffix e.1 ".json" = true ∧
        accountNameMatches (goTrimSuffix e.1 ".json") = true ∧
        b = goTrimSuffix e.1 ".json" := by
  induction entries generalizing acc with
  | nil => simp
  | cons e rest ih =>
    rw [List.foldl_cons, ih, listStep_eq]
    by_cases hd : e.2
    · rw [if_pos hd]
      constructor
      · rintro (hb | hex)
        · exact Or.inl hb
        · obtain ⟨e', he', hprops⟩ := hex
          exact Or.inr ⟨e', List.mem_cons_of_mem e he', hprops⟩
      · rintro (hb | ⟨e', he', hprops⟩)
        · exact Or.inl hb
        · rcases List.mem_cons.mp he' with rfl | he''
          · rw [hd] at hprops; cases hprops.1
          · exact Or.inr ⟨e', he'', hprops⟩
    · by_cases hsm : goHasSuffix e.1 ".json" &&
        accountNameMatches (goTrimSuffix e.1 ".json")
      · rw [if_neg hd, if_pos hsm, mem_insertAccount]
        have hsm' := (Bool.and_eq_true _ _).mp hsm
        constructor
        · rintro ((hb | rfl) | hex)
          · exact Or.inl hb
          · exact Or.inr ⟨e, List.mem_cons_self e rest,
              Bool.not_eq_true e.2 ▸ hd, hsm'.1, hsm'.2, rfl⟩
          · obtain ⟨e', he', hprops⟩ := hex
            exact Or.inr ⟨e', List.mem_cons_of_mem e he', hprops⟩
        · rintro (hb | ⟨e', he', hprops⟩)
          · exact Or.inl (Or.inl hb)
          · rcases List.mem_cons.mp he' with rfl | he''
            · exact Or.inl (Or.inr hprops.2.2.2)
            · exact Or.inr ⟨e', he'', hprops⟩
      · rw [if_neg hd, if_neg hsm]
        constructor
        · rintro (hb | ⟨e', he', hprops⟩)
          · exact Or.inl hb
          · exact Or.inr ⟨e', List.mem_cons_of_mem e he', hprops⟩
        · rintro (hb | ⟨e', he', hprops⟩)
          · exact Or.inl hb
          · rcases List.mem_cons.mp he' with rfl | he''
            · exact absurd ((Bool.and_eq_true _ _).mpr
                ⟨hprops.2.1, hprops.2.2.1⟩) hsm
            · exact Or.inr ⟨e', he'', hprops⟩

theorem nodup_foldl_listStep (entries : List (String × Bool))
    (acc : List String) (h : acc.Nodup) :
    (entries.foldl listStep acc).Nodup := by
  induction entries generalizing acc with
  | nil => exact h
  | cons e rest ih =>
    rw [List.foldl_cons, listStep_eq]
    by_cases hd : e.2
    · rw [if_pos hd]
      exact ih acc h
    · by_cases hsm : goHasSuffix e.1 ".json" &&
        accountNameMatches (goTrimSuffix e.1 ".json")
      · rw [if_neg hd, if_pos hsm]
        exact ih _ (nodup_insertAccount acc _ h)
      · rw [if_neg hd, if_neg hsm]
        exact ih acc h

/-! ## Sorting lemmas -/

theorem mem_sortStrings (l : List String) (b : String) :
    b ∈ sortStrings l ↔ b ∈ l :=
  (List.perm_insertionSort strle l).mem_iff

theorem sorted_sortStrings (l : List String) :
    List.Sorted strle (sortStrings l) :=
  List.sorted_insertionSort strle l

theorem nodup_sortStrings (l : List String) (h : l.Nodup) :
    (sortStrings l).Nodup :=
  ((List.perm_insertionSort strle l).nodup_iff).mpr h

/-! ## Read-after-write lemmas -/

theorem decodeContent_ne_noToken (c : FileContent) :
    decodeContent c ≠ .error .noToken := by
  unfold decodeContent
  cases unmarshalStoredToken c <;> simp

theorem readStored_setAccountFile_self (fs : FS) (account : String)
    (c : FileContent) :
    readStoredTokenUnlocked account (setAccountFile fs account c) =
      decodeContent c := by
  unfold readStoredTokenUnlocked
  have hl : lookupFile (setAccountFile fs account c).accountFiles
      (accountFileName account) = some c := by
    show lookupFile (setFile fs.accountFiles (accountFileName account) c)
      (accountFileName account) = some c
    exact lookupFile_setFile_self _ _ _
  rw [hl]

theorem newStore_eq (expl : String) (fs : FS) (resolved : String)
    (hr : resolveAccountNameForHome expl fs = .ok resolved) :
    NewFileTokenStoreForAccount expl fs =
      .ok (resolved, migrateLegacyDefaultIfNeeded resolved fs) := by
  unfold NewFileTokenStoreForAccount
  rw [hr]

theorem migrate_eq_of_absent (fs : FS) (X : FileContent)
    (h1 : lookupFile fs.accountFiles (accountFileName defaultAccount) = none)
    (h2 : fs.legacy = some X) :
    migrateLegacyDefaultIfNeeded defaultAccount fs =
      setAccountFile fs defaultAccount X := by
  unfold migrateLegacyDefaultIfNeeded
  rw [if_neg (by simp), h1, h2]

theorem migrate_eq_of_present (fs : FS) (Y : FileContent)
    (hY : lookupFile fs.accountFiles (accountFileName defaultAccount) = some Y) :
    migrateLegacyDefaultIfNeeded defaultAccount fs = fs := by
  unfold migrateLegacyDefaultIfNeeded
  rw [if_neg (by simp), hY]

/-! ## Claim theorems -/

/-- C6: the token read tries candidate files in fixed preference order —
the account-specific file first, and (for the default account only) the
legacy file as fallback — returns the distinguished no-token error
exactly when every candidate file is absent, and a candidate that is
present but fails JSON decoding yields a decode error, never the
no-token condition. -/
theorem readStoredToken_candidate_order (account : String) (fs : FS) :
    (readStoredTokenUnlocked account fs = .error .noToken ↔
      (lookupFile fs.accountFiles (accountFileName account) = none ∧
       (account = defaultAccount → fs.legacy = none)))
    ∧ (∀ c, lookupFile fs.accountFiles (accountFileName account) = some c →
        readStoredTokenUnlocked account fs = decodeContent c)
    ∧ (∀ c, lookupFile fs.accountFiles (accountFileName account) = none →
        account = defaultAccount → fs.legacy = some c →
        readStoredTokenUnlocked account fs = decodeContent c)
    ∧ (∀ c, unmarshalStoredToken c = none →
        decodeContent c = .error .decodeError) := by
  obtain ⟨fc, fl, fa, fd⟩ := fs
  refine ⟨?_, ?_, ?_, ?_⟩
  · unfold readStoredTokenUnlocked
    cases hl : lookupFile fa (accountFileName account) with
    | some c =>
      simp only [hl]
      constructor
      · intro h
        exact absurd h (decodeContent_ne_noToken c)
      · rintro ⟨h1, _⟩
        cases h1
    | none =>
      simp only [hl]
      by_cases hd : account = defaultAccount
      · rw [if_pos hd]
        cases fl with
        | some c =>
          constructor
          · intro h
            exact absurd h (decodeContent_ne_noToken c)
          · rintro ⟨_, h2⟩
            cases h2 hd
        | none => simp [hd]
      · rw [if_neg hd]
        simp [hd]
  · intro c hc
    unfold readStoredTokenUnlocked
    rw [hc]
  · intro c hnone hd hleg
    unfold readStoredTokenUnlocked
    rw [hnone, if_pos hd]
    have hleg' : fl = some c := hleg
    rw [hleg']
  · intro c hc
    unfold decodeContent
    rw [hc]

/-- Witness for C6 at concrete inputs: an empty home yields the no-token
condition, and a present-but-malformed account file yields a decode
error. -/
theorem readStoredToken_candidate_order_witness :
    readStoredTokenUnlocked "work" fsEmpty = .error .noToken ∧
    readStoredTokenUnlocked "default" fsLegacyOnly = .error .decodeError := by
  constructor
  · exact (readStoredToken_candidate_order "work" fsEmpty).1.mpr
      ⟨rfl, fun _ => rfl⟩
  · rw [(readStoredToken_candidate_order "default" fsLegacyOnly).2.2.1
      (.malformed 7) rfl rfl rfl]
    exact (readStoredToken_candidate_order "default" fsLegacyOnly).2.2.2
      (.malformed 7) rfl

/-- C7: `Clear` removes the account-specific file; for the default
account it additionally removes the legacy file, while for any other
account the legacy file is left in place; no other file changes, and the
operation succeeds whether or not the removed files exist. -/
theorem clear_spec (account : String) (fs : FS) :
    ∃ fs', Clear account fs = .ok fs' ∧
      lookupFile fs'.accountFiles (accountFileName account) = none ∧
      fs'.legacy = (if account = defaultAccount then none else fs.legacy) ∧
      fs'.config = fs.config ∧
      (∀ n, n ≠ accountFileName account →
        lookupFile fs'.accountFiles n = lookupFile fs.accountFiles n) := by
  by_cases hd : account = defaultAccount
  · refine ⟨{ fs with
        accountFiles := removeFile fs.accountFiles (accountFileName account),
        legacy := none }, ?_, ?_, ?_, rfl, ?_⟩
    · simp only [Clear]
      rw [if_pos hd]
    · exact lookupFile_removeFile_self _ _
    · rw [if_pos hd]
    · exact fun n hn => lookupFile_removeFile_ne _ _ _ hn
  · refine ⟨{ fs with
        accountFiles := removeFile fs.accountFiles (accountFileName account) },
        ?_, ?_, ?_, rfl, ?_⟩
    · simp only [Clear]
      rw [if_neg hd]
    · exact lookupFile_removeFile_self _ _
    · rw [if_neg hd]
    · exact fun n hn => lookupFile_removeFile_ne _ _ _ hn

/-- Witness for C7 at concrete inputs: clearing `default` removes the
legacy file too; the surviving `personal.json` keeps its content;
clearing a never-saved account on an empty home succeeds. -/
theorem clear_spec_witness :
    (∃ fs', Clear "default" fsListExample = .ok fs' ∧ fs'.legacy = none ∧
      lookupFile fs'.accountFiles "personal.json" =
        lookupFile fsListExample.accountFiles "personal.json") ∧
    (∃ fs', Clear "work" fsEmpty = .ok fs') := by
  constructor
  · obtain ⟨fs', h1, _, h3, _, h5⟩ := clear_spec "default" fsListExample
    refine ⟨fs', h1, ?_, h5 "personal.json" (by decide)⟩
    rw [h3]
    rfl
  · obtain ⟨fs', h1, _⟩ := clear_spec "work" fsEmpty
    exact ⟨fs', h1⟩

/-- C3: opening the default account's store is an idempotent migration —
with a legacy file of content `X` and no per-account default file, the
open migrates `X` into `accounts/default.json` and leaves the legacy
file in place; and whenever the per-account default file already exists
(whatever the legacy file now holds), opening never changes the
filesystem. -/
theorem open_migration_idempotent (expl : String) (fs : FS) (X : FileContent)
    (h1 : lookupFile fs.accountFiles (accountFileName defaultAccount) = none)
    (h2 : fs.legacy = some X)
    (hr : resolveAccountNameForHome expl fs = .ok defaultAccount) :
    (NewFileTokenStoreForAccount expl fs =
      .ok (defaultAccount, setAccountFile fs defaultAccount X))
    ∧ lookupFile (setAccountFile fs defaultAccount X).accountFiles
        (accountFileName defaultAccount) = some X
    ∧ (setAccountFile fs defaultAccount X).legacy = some X
    ∧ (∀ fs₂ expl₂ Y,
        lookupFile fs₂.accountFiles (accountFileName defaultAccount) = some Y →
        resolveAccountNameForHome expl₂ fs₂ = .ok defaultAccount →
        NewFileTokenStoreForAccount expl₂ fs₂ = .ok (defaultAccount, fs₂)) := by
  refine ⟨?_, ?_, ?_, ?_⟩
  · rw [newStore_eq expl fs defaultAccount hr, migrate_eq_of_absent fs X h1 h2]
  · exact lookupFile_setFile_self _ _ _
  · exact h2
  · intro fs₂ expl₂ Y hY hr₂
    rw [newStore_eq expl₂ fs₂ defaultAccount hr₂, migrate_eq_of_present fs₂ Y hY]

/-- Witness for C3 at a concrete input: a home with only a legacy file
(of unparseable bytes — migration copies bytes verbatim) migrates on
first open, and a second open after the legacy file changes leaves the
per-account file as it was. -/
theorem open_migration_idempotent_witness :
    (NewFileTokenStoreForAccount "" fsLegacyOnly =
      .ok (defaultAccount, setAccountFile fsLegacyOnly defaultAccount (.malformed 7)))
    ∧ NewFileTokenStoreForAccount ""
        { setAccountFile fsLegacyOnly defaultAccount (.malformed 7) with
          legacy := some (.malformed 8) } =
      .ok (defaultAccount,
        { setAccountFile fsLegacyOnly defaultAccount (.malformed 7) with
          legacy := some (.malformed 8) }) := by
  constructor
  · exact (open_migration_idempotent "" fsLegacyOnly (.malformed 7)
      rfl rfl rfl).1
  · exact (open_migration_idempotent "" fsLegacyOnly (.malformed 7)
      rfl rfl rfl).2.2.2 _ "" (.malformed 7) rfl rfl

/-- C5: for a store whose current record carries a non-empty client id,
`SaveToken` succeeds and the freshly stored record still carries that
client id (read-before-write preserves client registration metadata). -/
theorem saveToken_preserves_clientID (account : String) (token : Token)
    (now : String) (fs : FS) (cur : StoredToken)
    (hread : readStoredTokenUnlocked account fs = .ok cur)
    (_hcid : cur.clientID ≠ "") :
    ∃ fs' st, SaveToken account token now fs = .ok fs' ∧
      readStoredTokenUnlocked account fs' = .ok st ∧
      st.clientID = cur.clientID := by
  refine ⟨saveTokenWrite account token now cur fs,
    { accessToken := token.accessToken
      tokenType := token.tokenType
      refreshToken := token.refreshToken
      expiresAt := token.expiresAt
      savedAt := now
      clientID := cur.clientID }, ?_, ?_, rfl⟩
  · unfold SaveToken
    rw [hread]
  · unfold saveTokenWrite
    rw [readStored_setAccountFile_self, decodeContent_marshal]

/-- Witness for C5 at a concrete input: the record for `work` holds
client id `cid`; saving a fresh token keeps it. -/
theorem saveToken_preserves_clientID_witness :
    ∃ fs' st, SaveToken "work" ⟨"a2", "Bearer", "r2", ""⟩ "now" fsWithRefresh =
        .ok fs' ∧
      readStoredTokenUnlocked "work" fs' = .ok st ∧
      st.clientID = stWithRefresh.clientID := by
  have h := saveToken_preserves_clientID "work" ⟨"a2", "Bearer", "r2", ""⟩
    "now" fsWithRefresh stWithRefresh (by rfl) (by decide)
  exact h

/-- C1 counterexample: the record for `work` stores the non-empty
refresh token `old-refresh`; saving a refresh response whose
`refresh_token` field is empty leaves the stored record with an *empty*
refresh token — the previously stored one is not preserved. -/
theorem saveToken_refresh_overwrite_cex :
    (readStoredTokenUnlocked "work" fsWithRefresh).map
        (fun st => st.refreshToken) = .ok "old-refresh" ∧
    (SaveToken "work" ⟨"a2", "Bearer", "", ""⟩ "now" fsWithRefresh).map
        (fun fs' => (readStoredTokenUnlocked "work" fs').map
          (fun st => st.refreshToken)) = .ok (.ok "") :=
  ⟨rfl, rfl⟩

/-- C1 (amended): `SaveToken` always stores the incoming token's
`refresh_token` verbatim — in particular, a refresh response with an
empty `refresh_token` erases a previously stored non-empty one rather
than preserving it (only `client_id` is carried over from the existing
record, and `saved_at` is stamped with the current time). -/
theorem saveToken_stores_refresh_verbatim (account : String) (token : Token)
    (now : String) (fs fs' : FS)
    (hsave : SaveToken account token now fs = .ok fs') :
    ∃ st, readStoredTokenUnlocked account fs' = .ok st ∧
      st.refreshToken = token.refreshToken ∧
      st.accessToken = token.accessToken ∧
      st.savedAt = now := by
  unfold SaveToken at hsave
  cases hread : readStoredTokenUnlocked account fs with
  | ok cur =>
    rw [hread] at hsave
    have hsave' : (Except.ok (saveTokenWrite account token now cur fs) :
        Except StoreError FS) = Except.ok fs' := hsave
    injection hsave' with h
    subst h
    refine ⟨StoredToken.mk token.accessToken token.tokenType
      token.refreshToken token.expiresAt now cur.clientID, ?_, rfl, rfl, rfl⟩
    unfold saveTokenWrite
    rw [readStored_setAccountFile_self, decodeContent_marshal]
  | error e =>
    rw [hread] at hsave
    have hsave' : (if e = StoreError.noToken then
        Except.ok (saveTokenWrite account token now emptyStoredToken fs)
      else Except.error e) = Except.ok fs' := hsave
    by_cases he : e = .noToken
    · rw [if_pos he] at hsave'
      injection hsave' with h
      subst h
      refine ⟨StoredToken.mk token.accessToken token.tokenType
        token.refreshToken token.expiresAt now emptyStoredToken.clientID,
        ?_, rfl, rfl, rfl⟩
      unfold saveTokenWrite
      rw [readStored_setAccountFile_self, decodeContent_marshal]
    · rw [if_neg he] at hsave'
      cases hsave'

/-- Witness for C1's amended statement at a concrete input. -/
theorem saveToken_stores_refresh_verbatim_witness :
    ∃ st, readStoredTokenUnlocked "work"
        (saveTokenWrite "work" ⟨"a2", "Bearer", "", ""⟩ "now" stWithRefresh
          fsWithRefresh) = .ok st ∧
      st.refreshToken = "" ∧ st.accessToken = "a2" ∧ st.savedAt = "now" :=
  saveToken_stores_refresh_verbatim "work" ⟨"a2", "Bearer", "", ""⟩ "now"
    fsWithRefresh _ (by rfl)

/-- C2 counterexample: after `SaveClientID` writes a record with no
token yet, the stored `access_token` is empty, and `GetToken` *succeeds*
with an empty access token instead of failing with the distinguished
no-token condition. -/
theorem getToken_empty_access_cex :
    (SaveClientID "work" "cid" fsEmpty).map (fun fs' => GetToken "work" fs') =
      .ok (.ok ⟨"", "", "", ""⟩) :=
  rfl

/-- C2 (amended): a record on disk that decodes with an empty
`access_token` is not treated as "no token": `GetToken` returns success
carrying the empty access token.  (`ErrNoToken` arises exactly when
every candidate file is absent.) -/
theorem getToken_empty_access_success (account : String) (fs : FS)
    (c : FileContent) (st : StoredToken)
    (hfile : lookupFile fs.accountFiles (accountFileName account) = some c)
    (hdec : unmarshalStoredToken c = some st)
    (hempty : st.accessToken = "") :
    GetToken account fs = .ok ⟨"", st.tokenType, st.refreshToken, st.expiresAt⟩ := by
  have hr : readStoredTokenUnlocked account fs = .ok st := by
    unfold readStoredTokenUnlocked
    rw [hfile]
    show decodeContent c = Except.ok st
    unfold decodeContent
    rw [hdec]
  unfold GetToken
  rw [hr]
  show (Except.ok (Token.mk st.accessToken st.tokenType st.refreshToken
      st.expiresAt) : Except StoreError Token) =
    Except.ok (Token.mk "" st.tokenType st.refreshToken st.expiresAt)
  rw [hempty]

/-- Witness for C2's amended statement at a concrete input. -/
theorem getToken_empty_access_success_witness :
    GetToken "work"
        { fsEmpty with accountFiles :=
            [("work.json", marshalStoredToken { emptyStoredToken with clientID := "cid" })] } =
      .ok ⟨"", "", "", ""⟩ :=
  getToken_empty_access_success "work" _ _
    { emptyStoredToken with clientID := "cid" } rfl (by rfl) rfl

/-- C9 counterexample: `" work "` is non-empty after trimming and does
not match `^[A-Za-z0-9][A-Za-z0-9._@+-]*$`, so the claim demands a
validation error; the source instead trims first and succeeds, returning
the trimmed name (not the input verbatim). -/
theorem resolve_trims_before_validating_cex :
    goTrimSpace " work " ≠ " work " ∧
    accountNameMatches " work " = false ∧
    resolveAccountNameForHome " work " fsEmpty = .ok "work" :=
  ⟨by decide, by decide, rfl⟩

/-- C9 (amended): for input non-empty after trimming, `resolve` returns
the *trimmed* input exactly when the trimmed input matches the account
pattern and fails with a validation error otherwise, regardless of any
persisted active account; for input empty after trimming it returns the
persisted active account when set and valid, fails hard when the
persisted value is invalid, and returns `default` when none is set. -/
theorem resolve_precedence (s : String) (fs : FS) (cfg : CLIConfig)
    (hcfg : readCLIConfig fs = .ok cfg) :
    (goTrimSpace s ≠ "" →
      resolveAccountNameForHome s fs =
        (if accountNameMatches (goTrimSpace s) then .ok (goTrimSpace s)
         else .error (.invalidAccount (goTrimSpace s))))
    ∧ (goTrimSpace s = "" →
      resolveAccountNameForHome s fs =
        (if cfg.activeAccount = "" then .ok defaultAccount
         else if accountNameMatches cfg.activeAccount then .ok cfg.activeAccount
         else .error (.invalidAccount cfg.activeAccount))) := by
  constructor
  · intro hne
    unfold resolveAccountNameForHome
    rw [if_pos hne, validateAccountName_eq]
    by_cases hm : accountNameMatches (goTrimSpace s)
    · rw [if_pos hm, if_pos hm]
    · rw [if_neg hm, if_neg hm]
  · intro heq
    have hbody : resolveAccountNameForHome s fs =
        (if cfg.activeAccount ≠ "" then
          match ValidateAccountName cfg.activeAccount with
          | .error e => .error e
          | .ok () => .ok cfg.activeAccount
        else .ok defaultAccount) := by
      unfold resolveAccountNameForHome
      rw [if_neg (fun h => h heq), hcfg]
    rw [hbody]
    by_cases ha : cfg.activeAccount = ""
    · rw [if_neg (fun h => h ha), if_pos ha]
    · rw [if_pos ha, validateAccountName_eq, if_neg ha]
      by_cases hm : accountNameMatches cfg.activeAccount
      · rw [if_pos hm, if_pos hm]
      · rw [if_neg hm, if_neg hm]

/-- Witness for C9's amended statement at concrete inputs: explicit
names win over the persisted active account, an invalid persisted value
fails hard, and an unset one falls back to `default`. -/
theorem resolve_precedence_witness :
    resolveAccountNameForHome "work" fsBadActive = .ok "work" ∧
    resolveAccountNameForHome "" fsEmpty = .ok defaultAccount ∧
    resolveAccountNameForHome "" fsBadActive = .error (.invalidAccount " bad") := by
  refine ⟨?_, ?_, ?_⟩
  · have h := (resolve_precedence "work" fsBadActive ⟨" bad"⟩ rfl).1 (by decide)
    rw [h, if_pos (by decide : accountNameMatches (goTrimSpace "work") = true)]
    rfl
  · have h := (resolve_precedence "" fsEmpty ⟨""⟩ rfl).2 (by decide)
    rw [h, if_pos (by decide : ("" : String) = "")]
  · have h := (resolve_precedence "" fsBadActive ⟨" bad"⟩ rfl).2 (by decide)
    rw [h, if_neg (by decide : ¬(" bad" : String) = ""),
      if_neg (by decide : ¬accountNameMatches " bad" = true)]

/-- C4 counterexample: with an existing config document that is a JSON
object whose `active_account` value is a number, `setActiveAccount`
returns a decode error (the typed read of the config fails) instead of
performing the read-merge-write the claim promises for every JSON
object. -/
theorem setActiveAccount_nonstring_cex :
    SetActiveAccount "work" fsNumActive = .error .decodeError :=
  rfl

/-- C4 (amended): for every valid account name and every existing config
document that is a JSON object decodable as the CLI config (its
`active_account`, if present, a string or null), `setActiveAccount`
performs read-merge-write: `active_account` is set and every other
top-level key keeps its previous value, with no other file touched; a
missing config file is treated as an empty document, not an error. -/
theorem setActiveAccount_frame (account : String) (fs : FS) (cfg : CLIConfig)
    (hmatch : accountNameMatches account = true)
    (hread : readCLIConfig fs = .ok cfg) :
    (∀ kvs, fs.config = some (.json (.jobj kvs)) →
      ∃ kvs', SetActiveAccount account fs =
          .ok { fs with config := some (.json (.jobj kvs')) } ∧
        objLookup kvs' "active_account" = some (.jstr account) ∧
        (∀ k, k ≠ "active_account" → objLookup kvs' k = objLookup kvs k))
    ∧ (fs.config = none →
      SetActiveAccount account fs =
        .ok { fs with
          config := some (.json (.jobj [("active_account", .jstr account)])) }) := by
  have hset : SetActiveAccount account fs = writeCLIConfig fs ⟨account⟩ := by
    unfold SetActiveAccount
    rw [trimSpace_of_matches account hmatch, validateAccountName_eq,
      if_pos hmatch, hread]
  constructor
  · intro kvs hc
    refine ⟨objSet kvs "active_account" (.jstr account), ?_,
      objLookup_objSet_self kvs "active_account" (.jstr account),
      fun k hk => objLookup_objSet_ne kvs "active_account" k (.jstr account) hk⟩
    rw [hset]
    unfold writeCLIConfig
    rw [hc]
  · intro hc
    rw [hset]
    unfold writeCLIConfig
    rw [hc]
    rfl

/-- Witness for C4's amended statement at the spec's concrete example:
setting `work` preserves the unrelated `api` section byte-for-byte. -/
theorem setActiveAccount_frame_witness :
    ∃ kvs', SetActiveAccount "work" fsMergeExample =
        .ok { fsMergeExample with config := some (.json (.jobj kvs')) } ∧
      objLookup kvs' "active_account" = some (.jstr "work") ∧
      objLookup kvs' "api" =
        some (.jobj [("base_url", .jstr "u"), ("require_icon", .jbool true)]) := by
  obtain ⟨kvs', h1, h2, h3⟩ :=
    (setActiveAccount_frame "work" fsMergeExample ⟨"default"⟩ (by decide) rfl).1
      [("active_account", .jstr "default"),
       ("api", .jobj [("base_url", .jstr "u"), ("require_icon", .jbool true)])]
      rfl
  refine ⟨kvs', h1, h2, ?_⟩
  rw [h3 "api" (by decide)]
  rfl

/-! ## ListAccounts support lemmas -/

theorem activeAccountSeed_ok (cfg : CLIConfig)
    (hval : cfg.activeAccount = "" ∨ accountNameMatches cfg.activeAccount = true) :
    activeAccountSeed cfg =
      .ok (if cfg.activeAccount = "" then [] else [cfg.activeAccount]) := by
  unfold activeAccountSeed
  by_cases h0 : cfg.activeAccount = ""
  · rw [if_neg (fun h => h h0), if_pos h0]
  · rcases hval with hv | hv
    · exact absurd hv h0
    · rw [if_pos h0, validateAccountName_eq, if_pos hv, if_neg h0]
      rfl

theorem mem_seed_iff (cfg : CLIConfig) (a : String) :
    (a ∈ (if cfg.activeAccount = "" then ([] : List String)
          else [cfg.activeAccount])) ↔
      (cfg.activeAccount ≠ "" ∧ a = cfg.activeAccount) := by
  by_cases h0 : cfg.activeAccount = "" <;> simp [h0]

theorem entries_account_iff (fs : FS) (a : String) :
    (∃ e ∈ accountsDirEntries fs, e.2 = false ∧
      goHasSuffix e.1 ".json" = true ∧
      accountNameMatches (goTrimSuffix e.1 ".json") = true ∧
      a = goTrimSuffix e.1 ".json") ↔
    (accountNameMatches a = true ∧
      ∃ c, (accountFileName a, c) ∈ fs.accountFiles) := by
  constructor
  · rintro ⟨e, he, hdir, hsuf, hm, ha⟩
    rw [accountsDirEntries, List.mem_append] at he
    rcases he with hf | hd
    · rw [List.mem_map] at hf
      obtain ⟨nc, hnc, hmk⟩ := hf
      obtain ⟨p, hp⟩ := exists_of_hasSuffix e.1 hsuf
      have htrim : goTrimSuffix e.1 ".json" = p := by
        rw [hp, trimSuffix_append]
      subst ha
      rw [htrim] at hm ⊢
      refine ⟨hm, nc.2, ?_⟩
      have h1 : nc.1 = e.1 := by rw [← hmk]
      have h2 : accountFileName p = nc.1 := by
        rw [accountFileName, ← hp, h1]
      rw [h2]
      exact hnc
    · rw [List.mem_map] at hd
      obtain ⟨d, _, hmk⟩ := hd
      rw [← hmk] at hdir
      simp at hdir
  · rintro ⟨hm, c, hc⟩
    have ht : goTrimSuffix (accountFileName a) ".json" = a := trimSuffix_append a
    refine ⟨(accountFileName a, false), ?_, rfl, hasSuffix_append a, ?_, ?_⟩
    · rw [accountsDirEntries, List.mem_append]
      left
      rw [List.mem_map]
      exact ⟨(accountFileName a, c), hc, rfl⟩
    · rw [ht]
      exact hm
    · rw [ht]

theorem mem_accountsUnsorted (fs : FS) (seed : List String) (a : String) :
    a ∈ accountsUnsorted fs seed ↔
      a ∈ seed ∨
      (accountNameMatches a = true ∧
        ∃ c, (accountFileName a, c) ∈ fs.accountFiles) ∨
      (fs.legacy.isSome = true ∧ a = defaultAccount) := by
  unfold accountsUnsorted
  by_cases hleg : fs.legacy.isSome
  · rw [if_pos hleg, mem_insertAccount, mem_foldl_listStep,
      entries_account_iff]
    constructor
    · rintro ((hs | hfile) | hdef)
      · exact Or.inl hs
      · exact Or.inr (Or.inl hfile)
      · exact Or.inr (Or.inr ⟨hleg, hdef⟩)
    · rintro (hs | hfile | ⟨_, hdef⟩)
      · exact Or.inl (Or.inl hs)
      · exact Or.inl (Or.inr hfile)
      · exact Or.inr hdef
  · rw [if_neg hleg, mem_foldl_listStep, entries_account_iff]
    constructor
    · rintro (hs | hfile)
      · exact Or.inl hs
      · exact Or.inr (Or.inl hfile)
    · rintro (hs | hfile | ⟨hl, _⟩)
      · exact Or.inl hs
      · exact Or.inr hfile
      · exact absurd hl (by simpa using hleg)

theorem nodup_accountsUnsorted (fs : FS) (seed : List String)
    (h : seed.Nodup) : (accountsUnsorted fs seed).Nodup := by
  unfold accountsUnsorted
  by_cases hleg : fs.legacy.isSome
  · rw [if_pos hleg]
    exact nodup_insertAccount _ _ (nodup_foldl_listStep _ _ h)
  · rw [if_neg hleg]
    exact nodup_foldl_listStep _ _ h

/-- C8: whenever the config is readable and the configured active
account is unset or valid, `ListAccounts` succeeds with exactly the
sorted, duplicate-free union of the active account (when set), the
valid-named `.json` stems of the accounts directory, and `default` when
the legacy file exists; on the spec's concrete example it returns
exactly `["default", "personal", "team", "work"]`. -/
theorem listAccounts_union_sorted (fs : FS) (cfg : CLIConfig)
    (hcfg : readCLIConfig fs = .ok cfg)
    (hval : cfg.activeAccount = "" ∨ accountNameMatches cfg.activeAccount = true) :
    (∃ l, ListAccounts fs = .ok l ∧ List.Sorted strle l ∧ l.Nodup ∧
      (∀ a, a ∈ l ↔
        (cfg.activeAccount ≠ "" ∧ a = cfg.activeAccount) ∨
        (accountNameMatches a = true ∧
          ∃ c, (accountFileName a, c) ∈ fs.accountFiles) ∨
        (fs.legacy.isSome = true ∧ a = defaultAccount)))
    ∧ ListAccounts fsListExample = .ok ["default", "personal", "team", "work"] := by
  refine ⟨?_, by rfl⟩
  have hseed := activeAccountSeed_ok cfg hval
  refine ⟨sortStrings (accountsUnsorted fs
      (if cfg.activeAccount = "" then [] else [cfg.activeAccount])),
    ?_, sorted_sortStrings _, ?_, ?_⟩
  · simp only [ListAccounts, hcfg, hseed]
  · apply nodup_sortStrings
    apply nodup_accountsUnsorted
    by_cases h0 : cfg.activeAccount = "" <;> simp [h0]
  · intro a
    rw [mem_sortStrings, mem_accountsUnsorted, mem_seed_iff]

/-- Witness for C8 at the spec's concrete example, applying the theorem
with the concrete config in place. -/
theorem listAccounts_union_sorted_witness :
    ListAccounts fsListExample = .ok ["default", "personal", "team", "work"] :=
  (listAccounts_union_sorted fsListExample ⟨"team"⟩ rfl (Or.inr (by decide))).2

/-- C10: `ListAccounts` treats the two kinds of invalid name
asymmetrically — a non-empty invalid persisted active account makes the
whole listing fail with a validation error, while account files whose
stems are invalid names are silently skipped: the listing succeeds and
no invalid name ever appears in the result. -/
theorem listAccounts_invalid_asymmetry (fs : FS) (cfg : CLIConfig)
    (hcfg : readCLIConfig fs = .ok cfg) :
    (cfg.activeAccount ≠ "" → accountNameMatches cfg.activeAccount = false →
      ListAccounts fs = .error (.invalidAccount cfg.activeAccount))
    ∧ ((cfg.activeAccount = "" ∨ accountNameMatches cfg.activeAccount = true) →
      ∃ l, ListAccounts fs = .ok l ∧
        ∀ a, accountNameMatches a = false → a ∉ l) := by
  constructor
  · intro hne hm
    have hseed : activeAccountSeed cfg =
        .error (.invalidAccount cfg.activeAccount) := by
      unfold activeAccountSeed
      rw [if_pos hne, validateAccountName_eq, if_neg (by simp [hm])]
    simp only [ListAccounts, hcfg, hseed]
  · intro hval
    have hseed := activeAccountSeed_ok cfg hval
    refine ⟨sortStrings (accountsUnsorted fs
        (if cfg.activeAccount = "" then [] else [cfg.activeAccount])),
      by simp only [ListAccounts, hcfg, hseed], ?_⟩
    intro a hm hmem
    rw [mem_sortStrings, mem_accountsUnsorted, mem_seed_iff] at hmem
    rcases hmem with ⟨hne, rfl⟩ | ⟨hm', _⟩ | ⟨_, rfl⟩
    · rcases hval with hv | hv
      · exact hne hv
      · rw [hv] at hm
        cases hm
    · rw [hm'] at hm
      cases hm
    · have : accountNameMatches defaultAccount = true := by decide
      rw [this] at hm
      cases hm

/-- Witness for C10 at concrete inputs: a persisted invalid active
account (leading space) fails the listing, while an invalid-named file
in the accounts directory is skipped without error. -/
theorem listAccounts_invalid_asymmetry_witness :
    ListAccounts fsBadActive = .error (.invalidAccount " bad") ∧
    (∃ l, ListAccounts
        { fsEmpty with accountFiles := [("bad name.json", .json .jnull)] } =
        .ok l ∧ ∀ a, accountNameMatches a = false → a ∉ l) := by
  constructor
  · exact (listAccounts_invalid_asymmetry fsBadActive ⟨" bad"⟩ rfl).1
      (by decide) (by decide)
  · exact (listAccounts_invalid_asymmetry
      { fsEmpty with accountFiles := [("bad name.json", .json .jnull)] }
      ⟨""⟩ rfl).2 (Or.inl rfl)

end NotionCLI
